import Mathlib

/-!
Verification development for the cowchat repository.

The allocator (`beckon_cows` in `src/api/handlers.rs`) and the websocket
session controller (`CowChat` in `src/api/websockets.rs`) are shallowly
embedded below.  Database state is a list of `Cow` rows; the random draws
made by the Rust code (`choose_multiple` for names, `gen_range` for cow
attributes, `choose` for chat phrases) are passed in as explicit
parameters, so every theorem quantifies over all possible outcomes of the
randomness.  Machine integers (`u32`) are embedded as `Nat`; the claims
under study all carry hypotheses that keep the source arithmetic away
from underflow/overflow (the entity count never exceeds the catalog
size), so no wraparound modelling is needed on these code paths.
-/

namespace CowChatModel

/-- Embedding of `CowColor` from `src/api/types.rs`. -/
inductive CowColor where
  | Black
  | Brown
  | Tan
  | BlackWithWhitePatches
deriving DecidableEq, Repr

/-- Embedding of `Cow` from `src/api/types.rs` (`u32` fields as `Nat`). -/
structure Cow where
  name : String
  id : Nat
  color : CowColor
  age : Nat
  weight : Nat
deriving DecidableEq, Repr

/-- The fixed name catalog `COW_NAMES` from `src/api/utils.rs`, kept in the
source literal order.  The Rust value is a `HashSet`; the list below has no
duplicates (proved in `COW_NAMES_nodup`), so list membership coincides with
set membership. -/
def COW_NAMES : List String :=
  ["Arabella", "Bella", "Bessie", "Betty", "Bianca", "Blackjack", "Bossy",
   "Brownie", "Buttercup", "Butterscotch", "Cayenne", "Clarabelle", "Cookie",
   "Daisy", "Domino", "Dottie", "Flossie", "Gertie", "Ginger", "Goldie",
   "Guenevere", "Guinness", "Henrietta", "Maggie", "Marshmallow", "Millie",
   "Minnie", "Muffin", "Nellie", "Oreo", "Peaches", "Penelope", "Penny",
   "Phoebe", "Popcorn", "Princess", "Rosie", "Ruby", "Smokey", "Snowflake",
   "Speckles", "Sprinles", "Sugar", "Sweetie"]

/-- The three random draws performed by `make_cow` in `src/api/utils.rs`:
`gen_range(0..=3)` for the color, `gen_range(5..=30)` for the age and
`gen_range(1300..=1800)` for the weight. -/
structure CowAttrs where
  colorIdx : Fin 4
  age : Nat
  weight : Nat

/-- Embedding of `make_cow` from `src/api/utils.rs`, with the random draws
supplied as an explicit `CowAttrs` argument.  The `match` on the drawn color
index mirrors the source match arms. -/
def make_cow (attrs : CowAttrs) (name : String) (id : Nat) : Cow :=
  let color := match attrs.colorIdx with
    | ⟨0, _⟩ => CowColor.Black
    | ⟨1, _⟩ => CowColor.BlackWithWhitePatches
    | ⟨2, _⟩ => CowColor.Brown
    | _ => CowColor.Tan
  { name := name, id := id, color := color, age := attrs.age, weight := attrs.weight }

/-- Embedding of `count_cows` (`SELECT COUNT(*) FROM cows`): the number of
stored rows. -/
def count_cows (db : List Cow) : Nat := db.length

/-- Embedding of `list_current_cow_names` (`SELECT DISTINCT cow_name FROM
cows`): the distinct stored names.  `dedup` models `DISTINCT` / the Rust
`HashSet` collection. -/
def list_current_cow_names (db : List Cow) : List String :=
  (db.map Cow.name).dedup

/-- Embedding of `get_current_max_id` (`SELECT COALESCE(MAX(cow_id), 0) FROM
cows`): the maximum stored id, `0` when the table is empty. -/
def get_current_max_id (db : List Cow) : Nat :=
  (db.map Cow.id).foldr max 0

/-- Embedding of the set difference `COW_NAMES.difference(&used_names)` in
`beckon_cows`: the catalog names not currently in use. -/
def available_names (used_names : List String) : List String :=
  COW_NAMES.filter (fun nm => !(used_names.contains nm))

/-- Embedding of `write_cows` (`INSERT INTO cows ...` per row): appends the
new rows to the table. -/
def write_cows (db : List Cow) (cows : List Cow) : List Cow := db ++ cows

/-- The error message of the `anyhow::bail!` in `beckon_cows` — the
`CapacityExhausted` failure of the spec. -/
def capacityMsg : String := "Insufficient cows in meadow! Let some go!"

/-- Embedding of `beckon_cows` from `src/api/handlers.rs`.  `select avail k`
stands for `avail.choose_multiple(rng, k)` (the random draw of names) and
`attrs i` for the random attribute draws of the `i`-th created cow; both are
parameters so theorems range over every possible random outcome.  The result
pairs the handler's return value with the post-call table contents (the
error path performs no write). -/
def beckon_cows (select : List String → Nat → List String)
    (attrs : Nat → CowAttrs) (db : List Cow) (desired_number : Nat) :
    Except String (List Cow) × List Cow :=
  let max_cows := COW_NAMES.length
  let current_cows := count_cows db
  let adjusted_number := min desired_number (max_cows - current_cows)
  if adjusted_number = 0 then
    (Except.error capacityMsg, db)
  else
    let used_names := list_current_cow_names db
    let chosen_available_names := select (available_names used_names) adjusted_number
    let max_id := get_current_max_id db
    let new_cows := chosen_available_names.enum.map
      (fun p => make_cow (attrs p.1) p.2 (max_id + p.1 + 1))
    (Except.ok new_cows, write_cows db new_cows)

/-- The catalog contains no duplicate names, so its length is the catalog
size (the capacity). -/
theorem COW_NAMES_nodup : COW_NAMES.Nodup := by decide

/-- The stored name of a created cow is the name it was built from. -/
theorem make_cow_name (attrs : CowAttrs) (name : String) (id : Nat) :
    (make_cow attrs name id).name = name := rfl

/-- The stored id of a created cow is the id it was built from. -/
theorem make_cow_id (attrs : CowAttrs) (name : String) (id : Nat) :
    (make_cow attrs name id).id = id := rfl

/-- Removing the used names deletes at most `used.length` catalog entries, so
at least `|catalog| - |used|` names remain available. -/
theorem available_names_length_ge (used : List String) :
    COW_NAMES.length - used.length ≤ (available_names used).length := by
  have hsplit : COW_NAMES.length
      = (COW_NAMES.filter (fun nm => used.contains nm)).length
        + (available_names used).length := by
    simpa [available_names] using
      List.length_eq_length_filter_add (l := COW_NAMES) (fun nm => used.contains nm)
  have hsub : (COW_NAMES.filter (fun nm => used.contains nm)) ⊆ used := by
    intro a ha
    exact List.elem_iff.mp (List.mem_filter.mp ha).2
  have hle : (COW_NAMES.filter (fun nm => used.contains nm)).length ≤ used.length :=
    (List.subperm_of_subset (COW_NAMES_nodup.filter _) hsub).length_le
  omega

/-- Every available name is a catalog name. -/
theorem available_names_subset (used : List String) :
    ∀ nm ∈ available_names used, nm ∈ COW_NAMES := by
  intro nm h
  exact List.mem_of_mem_filter h

/-- No available name is a used name. -/
theorem available_names_not_used (used : List String) :
    ∀ nm ∈ available_names used, nm ∉ used := by
  intro nm h hmem
  have := List.of_mem_filter h
  simp only [Bool.not_eq_true'] at this
  exact absurd (List.elem_iff.mpr hmem) (by simpa using this)

/-- The names of the batch built in the success branch of `beckon_cows` are
exactly the chosen names, in order. -/
theorem batch_names (attrs : Nat → CowAttrs) (base : Nat) :
    ∀ (l : List String) (k : Nat),
      ((l.enumFrom k).map (fun p => make_cow (attrs p.1) p.2 (base + p.1 + 1))).map Cow.name
        = l := by
  intro l
  induction l with
  | nil => intro k; rfl
  | cons a t ih =>
      intro k
      simpa [List.enumFrom, make_cow_name] using ih (k + 1)

/-- The ids of the batch built in the success branch of `beckon_cows` are the
consecutive ids starting right above `base`. -/
theorem batch_ids (attrs : Nat → CowAttrs) (base : Nat) :
    ∀ (l : List String) (k : Nat),
      ((l.enumFrom k).map (fun p => make_cow (attrs p.1) p.2 (base + p.1 + 1))).map Cow.id
        = (List.range' k l.length).map (fun i => base + i + 1) := by
  intro l
  induction l with
  | nil => intro k; rfl
  | cons a t ih =>
      intro k
      simp [List.enumFrom, List.range'_succ, make_cow_id, ih (k + 1)]

/-- The batch of cows built in the success branch of `beckon_cows`: the
selected names are numbered and turned into rows with consecutive ids above
the current maximum. -/
def beckon_batch (select : List String → Nat → List String)
    (attrs : Nat → CowAttrs) (db : List Cow) (desired_number : Nat) : List Cow :=
  ((select (available_names (list_current_cow_names db))
      (min desired_number (COW_NAMES.length - count_cows db))).enum.map
    (fun p => make_cow (attrs p.1) p.2 (get_current_max_id db + p.1 + 1)))

/-- Success-branch shape of `beckon_cows`: when the adjusted count is
nonzero, the call returns the batch built from the selected names and
appends it to the table. -/
theorem beckon_cows_ok (select : List String → Nat → List String)
    (attrs : Nat → CowAttrs) (db : List Cow) (desired_number : Nat)
    (h : min desired_number (COW_NAMES.length - count_cows db) ≠ 0) :
    beckon_cows select attrs db desired_number =
      (Except.ok (beckon_batch select attrs db desired_number),
       db ++ beckon_batch select attrs db desired_number) := by
  simp only [beckon_cows, beckon_batch, write_cows, if_neg h]

/-- Error-branch shape of `beckon_cows`: when the adjusted count is zero the
call fails with the capacity message and leaves the table untouched. -/
theorem beckon_cows_err (select : List String → Nat → List String)
    (attrs : Nat → CowAttrs) (db : List Cow) (desired_number : Nat)
    (h : min desired_number (COW_NAMES.length - count_cows db) = 0) :
    beckon_cows select attrs db desired_number = (Except.error capacityMsg, db) := by
  simp only [beckon_cows, if_pos h]

/-- The names of the success batch are exactly the selected names, in
order. -/
theorem beckon_batch_map_name (select : List String → Nat → List String)
    (attrs : Nat → CowAttrs) (db : List Cow) (desired_number : Nat) :
    (beckon_batch select attrs db desired_number).map Cow.name
      = select (available_names (list_current_cow_names db))
          (min desired_number (COW_NAMES.length - count_cows db)) := by
  simpa [beckon_batch, List.enum] using
    batch_names attrs (get_current_max_id db)
      (select (available_names (list_current_cow_names db))
        (min desired_number (COW_NAMES.length - count_cows db))) 0

/-- The ids of the success batch are the consecutive integers right above
the pre-call maximum id, in selection order. -/
theorem beckon_batch_map_id (select : List String → Nat → List String)
    (attrs : Nat → CowAttrs) (db : List Cow) (desired_number : Nat) :
    (beckon_batch select attrs db desired_number).map Cow.id
      = (List.range (select (available_names (list_current_cow_names db))
            (min desired_number (COW_NAMES.length - count_cows db))).length).map
          (fun i => get_current_max_id db + i + 1) := by
  rw [List.range_eq_range']
  simpa [beckon_batch, List.enum] using
    batch_ids attrs (get_current_max_id db)
      (select (available_names (list_current_cow_names db))
        (min desired_number (COW_NAMES.length - count_cows db))) 0

/-- The success batch has one cow per selected name. -/
theorem beckon_batch_length (select : List String → Nat → List String)
    (attrs : Nat → CowAttrs) (db : List Cow) (desired_number : Nat) :
    (beckon_batch select attrs db desired_number).length
      = (select (available_names (list_current_cow_names db))
          (min desired_number (COW_NAMES.length - count_cows db))).length := by
  simp [beckon_batch]

/-- When the stored names are distinct, the adjusted count never exceeds the
number of still-available catalog names. -/
theorem adjusted_le_available (db : List Cow) (desired_number : Nat)
    (hnodup : (db.map Cow.name).Nodup) :
    min desired_number (COW_NAMES.length - count_cows db)
      ≤ (available_names (list_current_cow_names db)).length := by
  have hused : (list_current_cow_names db).length = db.length := by
    simp [list_current_cow_names, List.dedup_eq_self.mpr hnodup]
  have havail := available_names_length_ge (list_current_cow_names db)
  have hmin := Nat.min_le_right desired_number (COW_NAMES.length - count_cows db)
  simp only [count_cows] at hmin ⊢
  omega

/-- C1: For every requested count in `[1,5]` and current entity count
`c ≤ catalog_size`, `beckon_cows` fails with the capacity-exhausted error
exactly when `min(requested, catalog_size - c) = 0`, and otherwise returns
exactly that many newly created cows.  The hypotheses on `select` state
what `choose_multiple` guarantees about the random draw: it returns
`min(k, |avail|)` elements of the available pool. -/
theorem C1_allocate_count (select : List String → Nat → List String)
    (attrs : Nat → CowAttrs) (db : List Cow) (desired_number : Nat)
    (hreq : 1 ≤ desired_number ∧ desired_number ≤ 5)
    (hcap : count_cows db ≤ COW_NAMES.length)
    (hnodup : (db.map Cow.name).Nodup)
    (hsel : (select (available_names (list_current_cow_names db))
          (min desired_number (COW_NAMES.length - count_cows db))).length
        = min (min desired_number (COW_NAMES.length - count_cows db))
            (available_names (list_current_cow_names db)).length) :
    ((beckon_cows select attrs db desired_number).1 = Except.error capacityMsg
        ↔ min desired_number (COW_NAMES.length - count_cows db) = 0)
    ∧ (min desired_number (COW_NAMES.length - count_cows db) ≠ 0 →
        ∃ cows, (beckon_cows select attrs db desired_number).1 = Except.ok cows
          ∧ cows.length = min desired_number (COW_NAMES.length - count_cows db)) := by
  by_cases h : min desired_number (COW_NAMES.length - count_cows db) = 0
  · rw [beckon_cows_err select attrs db desired_number h]
    exact ⟨⟨fun _ => h, fun _ => rfl⟩, fun hn => absurd h hn⟩
  · rw [beckon_cows_ok select attrs db desired_number h]
    refine ⟨⟨fun hcontra => by simp at hcontra, fun hzero => absurd hzero h⟩,
      fun _ => ⟨beckon_batch select attrs db desired_number, rfl, ?_⟩⟩
    rw [beckon_batch_length, hsel]
    exact Nat.min_eq_left (adjusted_le_available db desired_number hnodup)

/-- C2: Every successful `beckon_cows` call returns cows whose names are
catalog names, pairwise distinct, and disjoint from the names already
stored.  The hypotheses on `select` state what `choose_multiple`
guarantees: the drawn names are distinct members of the available pool. -/
theorem C2_allocate_names (select : List String → Nat → List String)
    (attrs : Nat → CowAttrs) (db : List Cow) (desired_number : Nat)
    (cows : List Cow)
    (hselnodup : (select (available_names (list_current_cow_names db))
        (min desired_number (COW_NAMES.length - count_cows db))).Nodup)
    (hselmem : ∀ nm ∈ select (available_names (list_current_cow_names db))
        (min desired_number (COW_NAMES.length - count_cows db)),
        nm ∈ available_names (list_current_cow_names db))
    (hok : (beckon_cows select attrs db desired_number).1 = Except.ok cows) :
    (∀ c ∈ cows, c.name ∈ COW_NAMES)
    ∧ (cows.map Cow.name).Nodup
    ∧ (∀ c ∈ cows, c.name ∉ db.map Cow.name) := by
  by_cases h : min desired_number (COW_NAMES.length - count_cows db) = 0
  · rw [beckon_cows_err select attrs db desired_number h] at hok
    exact absurd hok (by simp)
  · rw [beckon_cows_ok select attrs db desired_number h] at hok
    have hcows : cows = beckon_batch select attrs db desired_number :=
      (Except.ok.injEq _ _ ▸ hok).symm
    subst hcows
    have hnames := beckon_batch_map_name select attrs db desired_number
    refine ⟨?_, ?_, ?_⟩
    · intro c hc
      have hmemname : c.name ∈ (beckon_batch select attrs db desired_number).map Cow.name :=
        List.mem_map_of_mem Cow.name hc
      rw [hnames] at hmemname
      exact available_names_subset _ _ (hselmem _ hmemname)
    · rw [hnames]; exact hselnodup
    · intro c hc hdb
      have hmemname : c.name ∈ (beckon_batch select attrs db desired_number).map Cow.name :=
        List.mem_map_of_mem Cow.name hc
      rw [hnames] at hmemname
      have hnotused := available_names_not_used _ _ (hselmem _ hmemname)
      exact hnotused (by simpa [list_current_cow_names, List.mem_dedup] using hdb)

/-- C3: In every successful `beckon_cows` call the assigned ids are exactly
`max_id+1 .. max_id+n` in selection order, where `max_id` is the pre-call
maximum id and `n` the effective count `min(requested, catalog_size - c)`:
the id list is strictly increasing and every id exceeds `max_id`. -/
theorem C3_allocate_ids (select : List String → Nat → List String)
    (attrs : Nat → CowAttrs) (db : List Cow) (desired_number : Nat)
    (cows : List Cow)
    (hnodup : (db.map Cow.name).Nodup)
    (hsel : (select (available_names (list_current_cow_names db))
          (min desired_number (COW_NAMES.length - count_cows db))).length
        = min (min desired_number (COW_NAMES.length - count_cows db))
            (available_names (list_current_cow_names db)).length)
    (hok : (beckon_cows select attrs db desired_number).1 = Except.ok cows) :
    cows.map Cow.id
      = (List.range (min desired_number (COW_NAMES.length - count_cows db))).map
          (fun i => get_current_max_id db + i + 1)
    ∧ (cows.map Cow.id).Pairwise (· < ·)
    ∧ (∀ i ∈ cows.map Cow.id, get_current_max_id db < i) := by
  by_cases h : min desired_number (COW_NAMES.length - count_cows db) = 0
  · rw [beckon_cows_err select attrs db desired_number h] at hok
    exact absurd hok (by simp)
  · rw [beckon_cows_ok select attrs db desired_number h] at hok
    have hcows : cows = beckon_batch select attrs db desired_number :=
      (Except.ok.injEq _ _ ▸ hok).symm
    subst hcows
    have hlen : (select (available_names (list_current_cow_names db))
          (min desired_number (COW_NAMES.length - count_cows db))).length
        = min desired_number (COW_NAMES.length - count_cows db) := by
      rw [hsel]
      exact Nat.min_eq_left (adjusted_le_available db desired_number hnodup)
    have hids := beckon_batch_map_id select attrs db desired_number
    rw [hlen] at hids
    refine ⟨hids, ?_, ?_⟩
    · rw [hids]
      exact (List.pairwise_lt_range _).map _ (fun a b hab => by omega)
    · intro i hi
      rw [hids] at hi
      obtain ⟨j, _, rfl⟩ := List.mem_map.mp hi
      omega

/-- C4: Whenever the effective count `min(requested, catalog_size - c)` is
zero, `beckon_cows` fails with the capacity-exhausted error, leaves the
stored table unchanged, and its outcome does not depend on the name
selection or the attribute draws (no selection or write is performed). -/
theorem C4_capacity_short_circuit (select select' : List String → Nat → List String)
    (attrs attrs' : Nat → CowAttrs) (db : List Cow) (desired_number : Nat)
    (h : min desired_number (COW_NAMES.length - count_cows db) = 0) :
    beckon_cows select attrs db desired_number = (Except.error capacityMsg, db)
    ∧ beckon_cows select attrs db desired_number
        = beckon_cows select' attrs' db desired_number := by
  refine ⟨beckon_cows_err select attrs db desired_number h, ?_⟩
  rw [beckon_cows_err select attrs db desired_number h,
    beckon_cows_err select' attrs' db desired_number h]

/-- A deterministic stand-in for the random draw of `choose_multiple`: take
the first `k` available names. -/
def select_take : List String → Nat → List String := fun avail k => avail.take k

/-- A second deterministic selection, used to witness that the error path is
independent of the selection. -/
def select_rev : List String → Nat → List String := fun avail k => avail.reverse.take k

/-- A fixed outcome for the attribute draws of `make_cow`. -/
def attrs_fixed : Nat → CowAttrs := fun _ => ⟨0, 5, 1300⟩

/-- A table holding a single cow. -/
def db_one : List Cow := [⟨"Bessie", 3, CowColor.Black, 10, 1400⟩]

/-- A table holding one cow per catalog name: the meadow is full. -/
def db_full : List Cow :=
  COW_NAMES.enum.map (fun p => ⟨p.2, p.1 + 1, CowColor.Black, 10, 1400⟩)

/-- Witness for C1 at a one-cow table and requested count 2. -/
theorem C1_allocate_count_witness :
    ((beckon_cows select_take attrs_fixed db_one 2).1 = Except.error capacityMsg
        ↔ min 2 (COW_NAMES.length - count_cows db_one) = 0)
    ∧ (min 2 (COW_NAMES.length - count_cows db_one) ≠ 0 →
        ∃ cows, (beckon_cows select_take attrs_fixed db_one 2).1 = Except.ok cows
          ∧ cows.length = min 2 (COW_NAMES.length - count_cows db_one)) :=
  C1_allocate_count select_take attrs_fixed db_one 2 (by decide) (by decide)
    (by decide) (by decide)

/-- Witness for C2 at a one-cow table and requested count 2. -/
theorem C2_allocate_names_witness :
    (∀ c ∈ beckon_batch select_take attrs_fixed db_one 2, c.name ∈ COW_NAMES)
    ∧ ((beckon_batch select_take attrs_fixed db_one 2).map Cow.name).Nodup
    ∧ (∀ c ∈ beckon_batch select_take attrs_fixed db_one 2,
        c.name ∉ db_one.map Cow.name) :=
  C2_allocate_names select_take attrs_fixed db_one 2
    (beckon_batch select_take attrs_fixed db_one 2) (by decide) (by decide) rfl

/-- Witness for C3 at a one-cow table and requested count 2. -/
theorem C3_allocate_ids_witness :
    (beckon_batch select_take attrs_fixed db_one 2).map Cow.id
      = (List.range (min 2 (COW_NAMES.length - count_cows db_one))).map
          (fun i => get_current_max_id db_one + i + 1)
    ∧ ((beckon_batch select_take attrs_fixed db_one 2).map Cow.id).Pairwise (· < ·)
    ∧ (∀ i ∈ (beckon_batch select_take attrs_fixed db_one 2).map Cow.id,
        get_current_max_id db_one < i) :=
  C3_allocate_ids select_take attrs_fixed db_one 2
    (beckon_batch select_take attrs_fixed db_one 2) (by decide) (by decide) rfl

/-- Witness for C4 at a full table and requested count 1. -/
theorem C4_capacity_short_circuit_witness :
    beckon_cows select_take attrs_fixed db_full 1 = (Except.error capacityMsg, db_full)
    ∧ beckon_cows select_take attrs_fixed db_full 1
        = beckon_cows select_rev attrs_fixed db_full 1 :=
  C4_capacity_short_circuit select_take select_rev attrs_fixed attrs_fixed
    db_full 1 (by decide)

/-! Session controller embedding, from `src/api/websockets.rs`.  Timestamps
are nanoseconds (the granularity of Rust `Instant`); `Instant` subtraction
only occurs where the larger operand is provably on the left, matching the
source, where `duration_since` and `Instant` subtraction assume
non-decreasing clocks. -/

/-- Timestamps in nanoseconds. -/
abbrev Instant := Nat

/-- Nanoseconds per second; `Duration::as_secs` divides by this. -/
def NANOS_PER_SEC : Nat := 1000000000

/-- `CLIENT_TIMEOUT` from `src/api/websockets.rs`: 10 seconds. -/
def CLIENT_TIMEOUT : Nat := 10 * NANOS_PER_SEC

/-- `HEARTBEAT_INTERVAL` from `src/api/websockets.rs`: 5 seconds. -/
def HEARTBEAT_INTERVAL : Nat := 5 * NANOS_PER_SEC

/-- The actor state `CowChat` (its `db_pool` field is the storage handle and
carries no session state, so it is not modelled). -/
structure CowChat where
  started : Instant
  heartbeat : Instant
  cow : String
deriving DecidableEq, Repr

/-- Embedding of `CowChat::new`: both timestamps start at the accept time. -/
def CowChat.new (now : Instant) (cow : String) : CowChat :=
  { started := now, heartbeat := now, cow := cow }

/-- Embedding of `CowChat::refresh_heartbeat`. -/
def CowChat.refresh_heartbeat (c : CowChat) (now : Instant) : CowChat :=
  { c with heartbeat := now }

/-- The fixed phrase catalog `COW_PHRASES` from `src/api/utils.rs`. -/
def COW_PHRASES : List String :=
  ["Mooo! \x7b\x7d understands.",
   "Mooo! \x7b\x7d offers kind words of encouragement.",
   "Mooo! \x7b\x7d thinks it's all for the best.",
   "Mooo! \x7b\x7d thinks you tried your best.",
   "Mooo! \x7b\x7d can't really disagree.",
   "Mooo! \x7b\x7d appreciates you making an effort."]

/-- Embedding of `make_cow_phrase`: the random `choose` over the non-empty
phrase catalog is passed in as an index (reduced modulo the catalog size, so
every choice picks an actual phrase and the `unwrap` cannot fail). -/
def make_cow_phrase (choice : Nat) (name : String) : String :=
  ((COW_PHRASES.get? (choice % COW_PHRASES.length)).getD "").replace "\x7b\x7d" name

/-- The inbound stream items matched by the `StreamHandler` impl: the
`ws::Message` variants named in the `match`, with `continuation`, `nop` and
the `Err(ProtocolError)` stream case all falling to the `_` arm. -/
inductive WsItem where
  | ping (payload : List UInt8)
  | pong (payload : List UInt8)
  | binary (payload : List UInt8)
  | text (s : String)
  | close (reason : Option String)
  | continuation
  | nop
  | protocolError
deriving DecidableEq, Repr

/-- The context operations the session invokes: frames written to the peer,
plus `stop`, which is `context.stop()` — the transition out of Active into
Closing. -/
inductive Effect where
  | sendPong (payload : List UInt8)
  | sendPing (payload : List UInt8)
  | sendText (s : String)
  | sendClose (reason : Option String)
  | stop
deriving DecidableEq, Repr

/-- Embedding of `StreamHandler::handle`: one inbound item at time `now`;
`choice` is the random phrase pick made when a text reply is produced. -/
def CowChat.handle (c : CowChat) (now : Instant) (choice : Nat) :
    WsItem → CowChat × List Effect
  | WsItem.ping msg => (c.refresh_heartbeat now, [Effect.sendPong msg])
  | WsItem.pong _ => (c.refresh_heartbeat now, [])
  | WsItem.binary _ => (c, [])
  | WsItem.text _ => (c, [Effect.sendText (make_cow_phrase choice c.cow)])
  | WsItem.close reason => (c, [Effect.sendClose reason, Effect.stop])
  | _ => (c, [Effect.stop])

/-- Embedding of the `run_interval` closure in `CowChat::start_beating`: the
liveness check run every `HEARTBEAT_INTERVAL`.  The byte `48` is `b'0'`, the
keep-alive ping payload. -/
def CowChat.heartbeat_tick (c : CowChat) (now : Instant) : CowChat × List Effect :=
  if now - c.heartbeat > CLIENT_TIMEOUT then (c, [Effect.stop])
  else (c, [Effect.sendPing [48]])

/-- One row of the `chat_sessions` table, as written by
`INSERT_CHAT_SESSION`. -/
structure SessionRecord where
  cow_name : String
  duration : Nat
deriving DecidableEq, Repr

/-- The record value computed inside `record_session_in_db`:
`(self.heartbeat - self.started).as_secs()` — whole seconds between start
and last heartbeat. -/
def session_record (c : CowChat) : SessionRecord :=
  { cow_name := c.cow, duration := (c.heartbeat - c.started) / NANOS_PER_SEC }

/-- Outcome of `CowChat::record_session_in_db`.  In the source,
`self.db_pool.get().unwrap()` and `conn.prepare_cached(..).unwrap()` panic
on failure, while an error from `stmt.execute` is caught by the `if let`
and only logged. -/
inductive RecordOutcome where
  | recorded (r : SessionRecord)
  | loggedWriteError (r : SessionRecord)
  | panicked
deriving DecidableEq, Repr

/-- Embedding of `CowChat::record_session_in_db`, with the three fallible
storage steps (pool checkout, statement preparation, statement execution)
given as success flags. -/
def record_session_in_db (connOk prepareOk execOk : Bool) (c : CowChat) :
    RecordOutcome :=
  if !connOk then RecordOutcome.panicked
  else if !prepareOk then RecordOutcome.panicked
  else if execOk then RecordOutcome.recorded (session_record c)
  else RecordOutcome.loggedWriteError (session_record c)

/-- One scheduled occurrence in a session's event loop: either an inbound
stream item (with the phrase draw it may consume) or a liveness-timer
tick. -/
inductive SessionEvent where
  | frame (item : WsItem) (choice : Nat)
  | tick
deriving DecidableEq, Repr

/-- Dispatch of one session event at time `now`. -/
def session_step (c : CowChat) (now : Instant) : SessionEvent → CowChat × List Effect
  | SessionEvent.frame item choice => c.handle now choice item
  | SessionEvent.tick => c.heartbeat_tick now

/-- Runs the Active-state event loop from state `c`: events are handled in
order until one produces `Effect.stop` (the transition to Closing) or the
transport closes after the last event; in either case the actor's `stopped`
hook then computes the session record exactly once.  The second component
collects the records passed to the storage layer. -/
def run_session_from (c : CowChat) :
    List (Instant × SessionEvent) → CowChat × List SessionRecord
  | [] => (c, [session_record c])
  | (now, e) :: rest =>
      let step := session_step c now e
      if Effect.stop ∈ step.2 then (step.1, [session_record step.1])
      else run_session_from step.1 rest

/-- A complete session for `cow` accepted at `t0`: the actor is constructed
with `started = heartbeat = t0` and its event loop is run. -/
def run_session (t0 : Instant) (cow : String)
    (events : List (Instant × SessionEvent)) : CowChat × List SessionRecord :=
  run_session_from (CowChat.new t0 cow) events

/-- True exactly on the two control frames that the handler answers with a
heartbeat refresh. -/
def isPingOrPong : WsItem → Bool
  | WsItem.ping _ => true
  | WsItem.pong _ => true
  | _ => false

/-- No session event moves `started`. -/
theorem session_step_started (c : CowChat) (now : Instant) (e : SessionEvent) :
    (session_step c now e).1.started = c.started := by
  cases e with
  | frame item choice =>
      cases item <;> rfl
  | tick =>
      simp only [session_step, CowChat.heartbeat_tick]
      split <;> rfl

/-- No session event changes the entity the session is scoped to. -/
theorem session_step_cow (c : CowChat) (now : Instant) (e : SessionEvent) :
    (session_step c now e).1.cow = c.cow := by
  cases e with
  | frame item choice =>
      cases item <;> rfl
  | tick =>
      simp only [session_step, CowChat.heartbeat_tick]
      split <;> rfl

/-- After any session event the heartbeat is either untouched or set to the
event's time. -/
theorem session_step_heartbeat (c : CowChat) (now : Instant) (e : SessionEvent) :
    (session_step c now e).1.heartbeat = c.heartbeat
    ∨ (session_step c now e).1.heartbeat = now := by
  cases e with
  | frame item choice =>
      cases item <;> simp [session_step, CowChat.handle, CowChat.refresh_heartbeat]
  | tick =>
      left
      simp only [session_step, CowChat.heartbeat_tick]
      split <;> rfl

/-- Every terminated run hands the storage layer exactly one record: the one
computed from the final state. -/
theorem run_session_from_records (events : List (Instant × SessionEvent)) :
    ∀ c : CowChat,
      (run_session_from c events).2 = [session_record (run_session_from c events).1] := by
  induction events with
  | nil => intro c; rfl
  | cons e rest ih =>
      intro c
      obtain ⟨now, ev⟩ := e
      by_cases h : Effect.stop ∈ (session_step c now ev).2
      · simp [run_session_from, h]
      · simp [run_session_from, h, ih]

/-- The run never moves `started`. -/
theorem run_session_from_started (events : List (Instant × SessionEvent)) :
    ∀ c : CowChat, (run_session_from c events).1.started = c.started := by
  induction events with
  | nil => intro c; rfl
  | cons e rest ih =>
      intro c
      obtain ⟨now, ev⟩ := e
      by_cases h : Effect.stop ∈ (session_step c now ev).2
      · simp [run_session_from, h, session_step_started]
      · simp [run_session_from, h, ih, session_step_started]

/-- The run never changes the entity the session is scoped to. -/
theorem run_session_from_cow (events : List (Instant × SessionEvent)) :
    ∀ c : CowChat, (run_session_from c events).1.cow = c.cow := by
  induction events with
  | nil => intro c; rfl
  | cons e rest ih =>
      intro c
      obtain ⟨now, ev⟩ := e
      by_cases h : Effect.stop ∈ (session_step c now ev).2
      · simp [run_session_from, h, session_step_cow]
      · simp [run_session_from, h, ih, session_step_cow]

/-- When every event happens at or after `t`, a heartbeat that started at or
after `t` stays at or after `t` for the whole run. -/
theorem run_session_from_heartbeat_ge (events : List (Instant × SessionEvent)) :
    ∀ (c : CowChat) (t : Instant), t ≤ c.heartbeat → (∀ e ∈ events, t ≤ e.1) →
      t ≤ (run_session_from c events).1.heartbeat := by
  induction events with
  | nil => intro c t hc _; exact hc
  | cons e rest ih =>
      intro c t hc hev
      obtain ⟨now, ev⟩ := e
      have hnow : t ≤ now := hev (now, ev) (by simp)
      have hstep : t ≤ (session_step c now ev).1.heartbeat := by
        rcases session_step_heartbeat c now ev with h | h
        · rw [h]; exact hc
        · rw [h]; exact hnow
      by_cases h : Effect.stop ∈ (session_step c now ev).2
      · simpa [run_session_from, h] using hstep
      · simp only [run_session_from, h, if_false]
        exact ih (session_step c now ev).1 t hstep (fun x hx => hev x (by simp [hx]))

/-- C5: The liveness tick uses a timeout of twice the 5-second check
interval; when the time since the last heartbeat exceeds it, the actor is
stopped (the transition to Closing) and the run terminates at once,
ignoring all further input; otherwise the tick emits the keep-alive ping
`b'0'` and the session stays Active, continuing with the remaining
events. -/
theorem C5_liveness_tick (c : CowChat) (now : Instant)
    (rest : List (Instant × SessionEvent)) :
    CLIENT_TIMEOUT = 2 * HEARTBEAT_INTERVAL
    ∧ c.heartbeat_tick now
        = (if now - c.heartbeat > CLIENT_TIMEOUT then (c, [Effect.stop])
           else (c, [Effect.sendPing [48]]))
    ∧ (now - c.heartbeat > CLIENT_TIMEOUT →
        run_session_from c ((now, SessionEvent.tick) :: rest) = (c, [session_record c]))
    ∧ (¬ now - c.heartbeat > CLIENT_TIMEOUT →
        run_session_from c ((now, SessionEvent.tick) :: rest) = run_session_from c rest) := by
  refine ⟨rfl, rfl, fun h => ?_, fun h => ?_⟩
  · simp [run_session_from, session_step, CowChat.heartbeat_tick, h]
  · simp [run_session_from, session_step, CowChat.heartbeat_tick, h]

/-- Witness for C5 at a session started at time 0 with a tick 11 seconds
later (past the 10-second timeout) and another one 3 seconds in (within
it). -/
theorem C5_liveness_tick_witness :
    run_session_from (CowChat.new 0 "Bessie")
        [(11 * NANOS_PER_SEC, SessionEvent.tick)]
      = (CowChat.new 0 "Bessie", [session_record (CowChat.new 0 "Bessie")])
    ∧ run_session_from (CowChat.new 0 "Bessie")
        [(3 * NANOS_PER_SEC, SessionEvent.tick)]
      = run_session_from (CowChat.new 0 "Bessie") [] :=
  ⟨(C5_liveness_tick (CowChat.new 0 "Bessie") (11 * NANOS_PER_SEC) []).2.2.1 (by decide),
   (C5_liveness_tick (CowChat.new 0 "Bessie") (3 * NANOS_PER_SEC) []).2.2.2 (by decide)⟩

/-- C6: An inbound item refreshes `last_heartbeat` (to the handling time)
exactly when it is a ping or pong control frame; a binary frame is ignored
outright — heartbeat untouched, no reply, no stop — and a text frame leaves
the heartbeat (and the whole session state) unchanged. -/
theorem C6_heartbeat_only_ping_pong (c : CowChat) (now : Instant) (choice : Nat)
    (item : WsItem) :
    ((c.handle now choice item).1.heartbeat
        = if isPingOrPong item then now else c.heartbeat)
    ∧ (∀ p, c.handle now choice (WsItem.binary p) = (c, []))
    ∧ (∀ s, (c.handle now choice (WsItem.text s)).1 = c) := by
  refine ⟨?_, fun p => rfl, fun s => rfl⟩
  cases item <;> simp [CowChat.handle, CowChat.refresh_heartbeat, isPingOrPong]

/-- C7: Every terminated session produces exactly one session record; it
carries the session's entity name and the duration in whole seconds between
`started_at` (the accept time `t0`) and the final `last_heartbeat`, and that
difference is a genuine (non-negative) one: the final heartbeat never
precedes the start when no event predates the session start. -/
theorem C7_session_record_once (t0 : Instant) (cow : String)
    (events : List (Instant × SessionEvent))
    (htimes : ∀ e ∈ events, t0 ≤ e.1) :
    (run_session t0 cow events).2
      = [{ cow_name := cow,
           duration := ((run_session t0 cow events).1.heartbeat - t0) / NANOS_PER_SEC }]
    ∧ (run_session t0 cow events).1.started = t0
    ∧ t0 ≤ (run_session t0 cow events).1.heartbeat := by
  have hrec := run_session_from_records events (CowChat.new t0 cow)
  have hst := run_session_from_started events (CowChat.new t0 cow)
  have hcw := run_session_from_cow events (CowChat.new t0 cow)
  have hhb := run_session_from_heartbeat_ge events (CowChat.new t0 cow) t0
    (Nat.le_refl t0) htimes
  have hcw2 : (run_session_from (CowChat.new t0 cow) events).1.cow = cow := by
    simpa [CowChat.new] using hcw
  have hst2 : (run_session_from (CowChat.new t0 cow) events).1.started = t0 := by
    simpa [CowChat.new] using hst
  simp only [run_session]
  refine ⟨?_, hst2, hhb⟩
  rw [hrec]
  simp only [session_record]
  rw [hcw2, hst2]

/-- Witness for C7: a session from time 0 that answers a ping at 3 seconds
and is reaped by the liveness timer at 20 seconds. -/
theorem C7_session_record_once_witness :
    (run_session 0 "Bessie"
        [(3 * NANOS_PER_SEC, SessionEvent.frame (WsItem.ping []) 0),
         (20 * NANOS_PER_SEC, SessionEvent.tick)]).2
      = [{ cow_name := "Bessie",
           duration := ((run_session 0 "Bessie"
              [(3 * NANOS_PER_SEC, SessionEvent.frame (WsItem.ping []) 0),
               (20 * NANOS_PER_SEC, SessionEvent.tick)]).1.heartbeat - 0) / NANOS_PER_SEC }]
    ∧ (run_session 0 "Bessie"
        [(3 * NANOS_PER_SEC, SessionEvent.frame (WsItem.ping []) 0),
         (20 * NANOS_PER_SEC, SessionEvent.tick)]).1.started = 0
    ∧ 0 ≤ (run_session 0 "Bessie"
        [(3 * NANOS_PER_SEC, SessionEvent.frame (WsItem.ping []) 0),
         (20 * NANOS_PER_SEC, SessionEvent.tick)]).1.heartbeat :=
  C7_session_record_once 0 "Bessie"
    [(3 * NANOS_PER_SEC, SessionEvent.frame (WsItem.ping []) 0),
     (20 * NANOS_PER_SEC, SessionEvent.tick)] (by decide)

/-- C8 counterexample: when the pool yields no connection the session-record
write panics — the `unwrap` in `record_session_in_db` — instead of being
logged and swallowed, so a storage failure at that step does abort the
teardown path, refuting the claim for connection-acquisition failures. -/
theorem C8_counterexample_conn_unwrap :
    record_session_in_db false true true (CowChat.new 0 "Bessie")
      = RecordOutcome.panicked
    ∧ (∀ r, RecordOutcome.panicked ≠ RecordOutcome.loggedWriteError r)
    ∧ (∀ r, RecordOutcome.panicked ≠ RecordOutcome.recorded r) := by
  refine ⟨rfl, fun r h => ?_, fun r h => ?_⟩ <;> cases h

/-- C8 (amended): only a failure of the insert's execution is swallowed —
logged, with teardown undisturbed — while a failure to obtain a pooled
connection, or to prepare the statement, panics through `unwrap` and aborts
the teardown path. -/
theorem C8_amended_write_failure_logged (c : CowChat) (prepareOk execOk : Bool) :
    record_session_in_db true true false c
      = RecordOutcome.loggedWriteError (session_record c)
    ∧ record_session_in_db true true true c
      = RecordOutcome.recorded (session_record c)
    ∧ record_session_in_db false prepareOk execOk c = RecordOutcome.panicked
    ∧ record_session_in_db true false execOk c = RecordOutcome.panicked :=
  ⟨rfl, rfl, rfl, rfl⟩

/-! Chat-open handler embedding, from `src/api/handlers.rs`
(`websocket_cowchat_handler`, `capitalized`, `check_for_cow`). -/

/-- Embedding of `capitalized`: Rust `char::to_uppercase` maps one character
to a character sequence, so the uppercasing is a parameter of type
`Char → List Char`; `cs.next().unwrap()` panics on an empty string, modelled
as `none`. -/
def capitalized (upper : Char → List Char) (s : String) : Option String :=
  match s.data with
  | [] => none
  | c :: cs => some ⟨upper c ++ cs⟩

/-- Plain ASCII uppercasing of a single character, the concrete instance of
the uppercase parameter used in witnesses (on ASCII input Rust
`char::to_uppercase` yields this single character). -/
def asciiUpper : Char → List Char := fun ch => [ch.toUpper]

/-- Embedding of `check_for_cow` with `CHECK_FOR_COW_QUERY`
(`SELECT 0 <> (SELECT COUNT(*) FROM cows WHERE cow_name = :cow_name)`).
SQLite compares strings with `=` case-sensitively (no `COLLATE NOCASE`
in this query), so this is an exact-match existence check. -/
def check_for_cow (db : List Cow) (cow_name : String) : Bool :=
  db.any (fun c => c.name == cow_name)

/-- Outcome of the chat-open endpoint: a websocket session scoped to the
normalized name, an internal error (pool or query failure), the
bad-request rejection naming the missing cow, or the panic of
`capitalized` on an empty path segment. -/
inductive WsHandlerResult where
  | session (cow : String)
  | internalError
  | badRequest (cow : String)
  | panicked
deriving DecidableEq, Repr

/-- Embedding of `websocket_cowchat_handler`: the path segment is
normalized by `capitalized` first, then a pooled connection is taken
(`connOk` is the checkout outcome) and the existence check decides between
starting a `CowChat` session and rejecting the request. -/
def websocket_cowchat_handler (upper : Char → List Char) (connOk : Bool)
    (db : List Cow) (path : String) : WsHandlerResult :=
  match capitalized upper path with
  | none => WsHandlerResult.panicked
  | some cow_name =>
      if !connOk then WsHandlerResult.internalError
      else if check_for_cow db cow_name then WsHandlerResult.session cow_name
      else WsHandlerResult.badRequest cow_name

/-- C9 counterexample: the table holds "Bessie", a case-insensitive match
for the requested name "bESSIE", yet the chat-open handler rejects the
connection — `capitalized` only uppercases the first character, and the
existence check compares case-sensitively — refuting the claimed
case-insensitive eligibility check. -/
theorem C9_counterexample_case_sensitive :
    (∃ c ∈ db_one, c.name.data.map Char.toLower = "bESSIE".data.map Char.toLower)
    ∧ websocket_cowchat_handler asciiUpper true db_one "bESSIE"
        = WsHandlerResult.badRequest "BESSIE" := by
  refine ⟨by decide, ?_⟩
  rfl

/-- C9 (amended): the supplied name is normalized by uppercasing its first
character only (the rest is left unchanged), the eligibility check is a
case-sensitive exact match of the normalized name against the stored
names, and when no stored name matches exactly, the connection is rejected
with the not-found error — no session is started. -/
theorem C9_amended_exact_match (upper : Char → List Char) (db : List Cow)
    (path : String) (nm : String)
    (hcap : capitalized upper path = some nm) :
    (websocket_cowchat_handler upper true db path = WsHandlerResult.session nm
        ↔ ∃ c ∈ db, c.name = nm)
    ∧ (websocket_cowchat_handler upper true db path = WsHandlerResult.badRequest nm
        ↔ ¬ ∃ c ∈ db, c.name = nm) := by
  have hexists : check_for_cow db nm = true ↔ ∃ c ∈ db, c.name = nm := by
    simp [check_for_cow, List.any_eq_true]
  simp only [websocket_cowchat_handler, hcap]
  cases h : check_for_cow db nm
  · simp [← hexists, h]
  · simp [← hexists, h]

/-- Witness for the amended C9: requesting "bessie" against a table holding
"Bessie" — the normalized name matches exactly, so the session starts; the
equivalences then follow from the theorem. -/
theorem C9_amended_exact_match_witness :
    (websocket_cowchat_handler asciiUpper true db_one "bessie"
        = WsHandlerResult.session "Bessie" ↔ ∃ c ∈ db_one, c.name = "Bessie")
    ∧ (websocket_cowchat_handler asciiUpper true db_one "bessie"
        = WsHandlerResult.badRequest "Bessie" ↔ ¬ ∃ c ∈ db_one, c.name = "Bessie") :=
  C9_amended_exact_match asciiUpper db_one "bessie" "Bessie" (by decide)

/-- C10: `capitalized` is defined exactly on non-empty inputs: it panics
(returns `none`, the `unwrap` of a missing first character) precisely on
the empty string, and on any non-empty string it returns the uppercased
first character followed by the unchanged remainder. -/
theorem C10_capitalized_nonempty (upper : Char → List Char) (s : String) :
    (capitalized upper s = none ↔ s = "")
    ∧ (∀ ch cs, s = ⟨ch :: cs⟩ → capitalized upper s = some ⟨upper ch ++ cs⟩) := by
  obtain ⟨data⟩ := s
  cases data with
  | nil =>
      refine ⟨⟨fun _ => rfl, fun _ => rfl⟩, fun ch cs h => ?_⟩
      simp [String.ext_iff] at h
  | cons c cs =>
      refine ⟨⟨fun h => ?_, fun h => ?_⟩, fun ch csx h => ?_⟩
      · exact absurd h (by simp [capitalized])
      · exact absurd h (by simp [String.ext_iff])
      · have hdata : c :: cs = ch :: csx := by
          simpa [String.ext_iff] using h
        cases hdata
        rfl

/-- Witness for C10: lowercase "bessie" is normalized to "Bessie", and the
empty string makes the unwrap panic. -/
theorem C10_capitalized_nonempty_witness :
    capitalized asciiUpper "bessie" = some "Bessie"
    ∧ capitalized asciiUpper "" = none := by
  constructor
  · exact ((C10_capitalized_nonempty asciiUpper "bessie").2 'b' "essie".data
      (by decide)).trans (by decide)
  · exact (C10_capitalized_nonempty asciiUpper "").1.mpr rfl

end CowChatModel
